import Mathlib

/-!
# Friend recommendation algorithm — formal model

Shallow embedding of the friend-recommendation core of the ANPDSS flask
backend (`api/friend_api.py`, `model/friend.py`, `model/moodmeal_mood.py`,
`model/moodmeal_preferences.py`), together with theorems checking the
natural-language specification against it.

Modelling conventions:
* Python floats are modelled as rationals (`ℚ`); machine rounding of binary
  floats is idealised to exact rational arithmetic.
* Python `set` objects whose only observed behaviour is cardinality are
  modelled as `Finset String`; where the source turns a set back into a list
  (`list(set1 & set2)`, whose enumeration order CPython leaves unspecified)
  the model fixes first-occurrence order via `List.dedup`/`List.filter`.
* Database tables are explicit lists of rows.  A mood query ordered by
  timestamp descending is modelled by keeping each table list in that query
  order, so `filter` + `take 30` reproduces `ORDER BY timestamp DESC LIMIT 30`.
* A nullable `mood_category` column is modelled as a `String`, with `""`
  standing for SQL `NULL`/Python `None`: the source only ever tests the
  category for Python truthiness (where `None` and `""` behave identically)
  before using it.
-/

namespace ANPDSS

/-- One row of the `moodmeal_moods` table (the fields the algorithm reads). -/
structure MoodEntry where
  user_id : ℤ
  mood_score : ℤ
  mood_category : String
  deriving Repr, DecidableEq

/-- One row of the `moodmeal_preferences` table (the fields the algorithm
reads; `dietary`/`allergies` are never consulted by the recommender). -/
structure Preferences where
  user_id : ℤ
  music : List String
  activities : List String
  cuisines : List String
  deriving Repr, DecidableEq

/-- One row of the `friends` table. -/
structure FriendRow where
  user_id1 : ℤ
  user_id2 : ℤ
  deriving Repr, DecidableEq

/-- One row of the `friend_requests` table. -/
structure FriendRequestRow where
  sender_id : ℤ
  receiver_id : ℤ
  status : String
  deriving Repr, DecidableEq

/-- The database state visible to the recommender: the `users` table
(only ids are relevant), and the four data tables.  `moods` is kept in
timestamp-descending order, matching the source's query order. -/
structure DB where
  users : List ℤ
  moods : List MoodEntry
  prefs : List Preferences
  friends : List FriendRow
  requests : List FriendRequestRow
  deriving Repr

/-- The `scores` dict built by `calculate_similarity_score`: exactly the five
keys `mood_score`, `mood_category`, `music`, `activities`, `cuisines`. -/
structure Breakdown where
  mood_score : ℚ
  mood_category : ℚ
  music : ℚ
  activities : ℚ
  cuisines : ℚ
  deriving Repr, DecidableEq

/-- One entry of the list returned by `get_recommendations`.  The cold-start
path builds a dict without a `score_breakdown` key, modelled by
`score_breakdown = none`; the scored path always supplies `some _`. -/
structure Recommendation where
  user : ℤ
  score : ℚ
  score_breakdown : Option Breakdown
  shared_mood_categories : List String
  avg_mood_score : Option ℚ
  shared_music : List String
  shared_activities : List String
  shared_cuisines : List String
  deriving Repr, DecidableEq

/-! ## Table queries (`model/friend.py`, mood/preference queries) -/

/-- `MoodMealMood.query.filter_by(_user_id=uid).order_by(timestamp desc).limit(30)`:
the table list is in timestamp-descending order, so filter then take 30. -/
def recentMoods (db : DB) (uid : ℤ) : List MoodEntry :=
  ((db.moods.filter (fun m => m.user_id = uid))).take 30

/-- `MoodMealPreferences.query.filter_by(_user_id=uid).first()`. -/
def getPrefs (db : DB) (uid : ℤ) : Option Preferences :=
  (db.prefs.filter (fun p => p.user_id = uid)).head?

/-- `Friend.get_friends_for_user`: rows containing `uid` on either side,
mapped to the opposite id. -/
def get_friends_for_user (db : DB) (uid : ℤ) : List ℤ :=
  (db.friends.filter (fun f => f.user_id1 = uid ∨ f.user_id2 = uid)).map
    (fun f => if f.user_id1 = uid then f.user_id2 else f.user_id1)

/-- `FriendRequest.get_sent_requests_for_user`: all rows with this sender
(any status). -/
def get_sent_requests_for_user (db : DB) (uid : ℤ) : List FriendRequestRow :=
  db.requests.filter (fun r => r.sender_id = uid)

/-- `FriendRequest.get_pending_requests_for_user`: rows with this receiver
and status `pending`. -/
def get_pending_requests_for_user (db : DB) (uid : ℤ) : List FriendRequestRow :=
  db.requests.filter (fun r => r.receiver_id = uid ∧ r.status = "pending")

/-! ## Similarity scoring (`FriendRecommendationAlgorithm`) -/

/-- `calculate_list_overlap`: 0.0 if either list is Python-falsy (empty),
else `len(set1 & set2) / len(set1 | set2)` guarded by `union > 0`.
The strings are compared exactly as stored: no case folding, no trimming. -/
def calculate_list_overlap (list1 list2 : List String) : ℚ :=
  if list1 = [] ∨ list2 = [] then 0
  else
    let set1 := list1.toFinset
    let set2 := list2.toFinset
    let intersection := (set1 ∩ set2).card
    let union := (set1 ∪ set2).card
    if 0 < union then (intersection : ℚ) / (union : ℚ) else 0

/-- Average of the `mood_score` column over a mood list (`sum(...)/len(...)`). -/
def avgMood (ms : List MoodEntry) : ℚ :=
  ((ms.map (fun m => m.mood_score)).sum : ℚ) / (ms.length : ℚ)

/-- `set(m.mood_category for m in ms if m.mood_category)`: the distinct
truthy categories of a mood list. -/
def catFinset (ms : List MoodEntry) : Finset String :=
  ((ms.map (fun m => m.mood_category)).filter (fun c => c ≠ "")).toFinset

/-- `calculate_similarity_score`: the five component scores and their fixed
weighted sum (25/15/20/20/20 %). -/
def calculate_similarity_score (user_moods other_moods : List MoodEntry)
    (user_prefs other_prefs : Option Preferences) : ℚ × Breakdown :=
  let moodPair : ℚ × ℚ :=
    if user_moods ≠ [] ∧ other_moods ≠ [] then
      let user_avg_score := avgMood user_moods
      let other_avg_score := avgMood other_moods
      let score_diff := |user_avg_score - other_avg_score|
      let mood_score := max 0 (1 - score_diff / 100)
      let user_categories := catFinset user_moods
      let other_categories := catFinset other_moods
      let mood_category :=
        if user_categories ≠ ∅ ∧ other_categories ≠ ∅ then
          ((user_categories ∩ other_categories).card : ℚ) /
            ((user_categories ∪ other_categories).card : ℚ)
        else 0
      (mood_score, mood_category)
    else (0, 0)
  let prefTriple : ℚ × ℚ × ℚ :=
    match user_prefs, other_prefs with
    | some up, some op =>
        (calculate_list_overlap up.music op.music,
         calculate_list_overlap up.activities op.activities,
         calculate_list_overlap up.cuisines op.cuisines)
    | _, _ => (0, 0, 0)
  let scores : Breakdown :=
    { mood_score := moodPair.1
      mood_category := moodPair.2
      music := prefTriple.1
      activities := prefTriple.2.1
      cuisines := prefTriple.2.2 }
  let final_score :=
    scores.mood_score * (25 / 100) +
    scores.mood_category * (15 / 100) +
    scores.music * (20 / 100) +
    scores.activities * (20 / 100) +
    scores.cuisines * (20 / 100)
  (final_score, scores)

/-! ## Helpers for the result records -/

/-- Python `round` (banker's rounding, half to even), idealised over `ℚ`. -/
def pyRoundInt (q : ℚ) : ℤ :=
  let f := ⌊q⌋
  let r := q - (f : ℚ)
  if r < 1 / 2 then f
  else if 1 / 2 < r then f + 1
  else if f % 2 = 0 then f else f + 1

/-- `round(x, 1)`. -/
def pyRound1 (q : ℚ) : ℚ :=
  ((pyRoundInt (q * 10)) : ℚ) / 10

/-- The distinct truthy categories of a mood list, as a list
(first-occurrence enumeration of the Python set). -/
def catList (ms : List MoodEntry) : List String :=
  (((ms.map (fun m => m.mood_category)).filter (fun c => c ≠ ""))).dedup

/-- `list(set(a) & set(b))`: intersection of two string lists as a list
(first-occurrence enumeration). -/
def interList (a b : List String) : List String :=
  a.dedup.filter (fun s => s ∈ b)

/-! ## `get_recommendations` -/

/-- The exclusion set of lines 117–125: self, friends, receivers of the
user's pending sent requests, senders of pending received requests.  The
source stores these in a Python set used only for membership tests; a list
with `∈` is observationally identical. -/
def excludedIds (db : DB) (uid : ℤ) : List ℤ :=
  uid :: (get_friends_for_user db uid
    ++ ((get_sent_requests_for_user db uid).filter
          (fun r => r.status = "pending")).map (fun r => r.receiver_id)
    ++ (get_pending_requests_for_user db uid).map (fun r => r.sender_id))

/-- Lines 128–131: ids having at least one mood row or preference row
(the `distinct()` queries, modelled with `dedup`), minus the excluded set. -/
def candidateIds (db : DB) (uid : ℤ) : List ℤ :=
  (((db.moods.map (fun m => m.user_id)) ++
    (db.prefs.map (fun p => p.user_id))).dedup).filter
    (fun u => u ∉ excludedIds db uid)

/-- SQLAlchemy `.limit(n)` for the cold-start user query: non-negative `n`
takes a prefix; SQLite treats a negative `LIMIT` as "no limit". -/
def sqlLimit (limit : ℤ) (l : List α) : List α :=
  if 0 ≤ limit then l.take limit.toNat else l

/-- Python slice `l[:limit]` on an `int` limit: non-negative takes a prefix,
negative drops the last `|limit|` elements. -/
def pyTake (limit : ℤ) (l : List α) : List α :=
  if 0 ≤ limit then l.take limit.toNat
  else l.take (l.length - (-limit).toNat)

/-- A cold-start result entry (lines 136–144): score 0.0, no
`score_breakdown` key, empty shared lists, `None` average. -/
def coldEntry (u : ℤ) : Recommendation :=
  { user := u
    score := 0
    score_breakdown := none
    shared_mood_categories := []
    avg_mood_score := none
    shared_music := []
    shared_activities := []
    shared_cuisines := [] }

/-- Loop body of lines 148–192 for one candidate: `none` when the candidate
is skipped (no data, zero score, or missing user row), otherwise the built
recommendation dict. -/
def scoreCandidate (db : DB) (uid other : ℤ) : Option Recommendation :=
  let user_moods := recentMoods db uid
  let user_prefs := getPrefs db uid
  let other_moods := recentMoods db other
  let other_prefs := getPrefs db other
  if other_moods = [] ∧ other_prefs = none then none
  else
    let sc := calculate_similarity_score user_moods other_moods user_prefs other_prefs
    if 0 < sc.1 then
      if other ∈ db.users then
        let catAvg : List String × Option ℚ :=
          if user_moods ≠ [] ∧ other_moods ≠ [] then
            ((catList user_moods).filter (fun c => c ∈ catList other_moods),
             some (pyRound1 (avgMood other_moods)))
          else ([], none)
        let sharedPrefs : List String × List String × List String :=
          match user_prefs, other_prefs with
          | some up, some op =>
              (interList up.music op.music,
               interList up.activities op.activities,
               interList up.cuisines op.cuisines)
          | _, _ => ([], [], [])
        some
          { user := other
            score := sc.1
            score_breakdown := some sc.2
            shared_mood_categories := catAvg.1
            avg_mood_score := catAvg.2
            shared_music := sharedPrefs.1.take 5
            shared_activities := sharedPrefs.2.1.take 5
            shared_cuisines := sharedPrefs.2.2.take 5 }
      else none
    else none

/-- The `recommendations` list accumulated by the candidate loop, in
candidate-enumeration order, before sorting. -/
def scoredRecs (db : DB) (uid : ℤ) : List Recommendation :=
  (candidateIds db uid).filterMap (scoreCandidate db uid)

/-- Stable insertion step for the descending sort: place `r` before the
first element whose score is `≤ r.score`, keeping earlier greater-or-equal
elements in front. -/
def insertRec (r : Recommendation) : List Recommendation → List Recommendation
  | [] => [r]
  | x :: xs => if x.score ≤ r.score then r :: x :: xs else x :: insertRec r xs

/-- `recommendations.sort(key=score, reverse=True)`: CPython's sort is
stable; this stable insertion sort produces the same list. -/
def sortByScoreDesc : List Recommendation → List Recommendation
  | [] => []
  | r :: rs => insertRec r (sortByScoreDesc rs)

/-- `FriendRecommendationAlgorithm.get_recommendations` (lines 94–198). -/
def get_recommendations (db : DB) (uid : ℤ) (limit : ℤ) : List Recommendation :=
  if recentMoods db uid = [] ∧ getPrefs db uid = none then
    (sqlLimit limit (db.users.filter (fun u => u ∈ candidateIds db uid))).map coldEntry
  else
    pyTake limit (sortByScoreDesc (scoredRecs db uid))

/-! ## Mood categories (`model/moodmeal_mood.py`) -/

/-- The `MOOD_CATEGORIES` threshold table: (name, min_score, max_score). -/
def MOOD_CATEGORIES : List (String × ℤ × ℤ) :=
  [("Stressed/Anxious", 0, 40),
   ("Tired/Low Energy", 41, 60),
   ("Happy/Neutral", 61, 80),
   ("Energetic/Excited", 81, 100)]

/-- `get_category_from_score`: first category whose inclusive range contains
the score, else `"Unknown"`. -/
def get_category_from_score (score : ℤ) : String :=
  match MOOD_CATEGORIES.find? (fun c => c.2.1 ≤ score ∧ score ≤ c.2.2) with
  | some c => c.1
  | none => "Unknown"

end ANPDSS

namespace ANPDSS

/-! ## Spec-side component definitions (refinement targets)

These two definitions follow the specification's words (§4.2 step 3c), to be
compared against the code-derived `calculate_similarity_score`. -/

/-- Spec: `mood_score_similarity = max(0, 1 − |avg(requester.mood_score) −
avg(candidate.mood_score)| / 100)`, and 0.0 if either side has zero mood
entries. -/
def spec_mood_score_similarity (um om : List MoodEntry) : ℚ :=
  if um = [] ∨ om = [] then 0
  else max 0 (1 - |avgMood um - avgMood om| / 100)

/-- Spec: `mood_category_overlap` is the Jaccard similarity of the two sides'
distinct mood-category sets, and 0.0 if either set is empty. -/
def spec_mood_category_overlap (um om : List MoodEntry) : ℚ :=
  if catFinset um = ∅ ∨ catFinset om = ∅ then 0
  else ((catFinset um ∩ catFinset om).card : ℚ) /
    ((catFinset um ∪ catFinset om).card : ℚ)

/-! ## A concrete database used for witnesses and counterexamples -/

/-- Example state: user 1 and 2 share a mood history and preferences, user 3
has partial preferences, user 4 is user 1's friend, user 5 has a pending
request to user 1, user 6 has no data at all. -/
def exDB : DB :=
  { users := [1, 2, 3, 4, 5, 6]
    moods := [⟨1, 75, "Happy/Neutral"⟩, ⟨2, 75, "Happy/Neutral"⟩]
    prefs := [⟨1, ["rock"], ["hiking"], ["italian"]⟩,
              ⟨2, ["rock"], ["hiking"], ["italian"]⟩,
              ⟨3, ["rock"], [], []⟩,
              ⟨4, ["rock"], [], []⟩,
              ⟨5, ["rock"], [], []⟩]
    friends := [⟨1, 4⟩]
    requests := [⟨5, 1, "pending"⟩] }

/-! ## Component bounds -/

lemma calculate_list_overlap_nonneg (l1 l2 : List String) :
    0 ≤ calculate_list_overlap l1 l2 := by
  unfold calculate_list_overlap
  dsimp only
  split_ifs <;> positivity

lemma calculate_list_overlap_le_one (l1 l2 : List String) :
    calculate_list_overlap l1 l2 ≤ 1 := by
  unfold calculate_list_overlap
  dsimp only
  split_ifs with h h2
  · exact zero_le_one
  · rw [div_le_one (by exact_mod_cast h2)]
    exact_mod_cast Finset.card_le_card Finset.inter_subset_union
  · exact zero_le_one

lemma css_mood_score (um om : List MoodEntry) (up op : Option Preferences) :
    (calculate_similarity_score um om up op).2.mood_score =
      if um ≠ [] ∧ om ≠ [] then max 0 (1 - |avgMood um - avgMood om| / 100)
      else 0 := by
  unfold calculate_similarity_score
  dsimp only
  split_ifs <;> rfl

lemma css_mood_category (um om : List MoodEntry) (up op : Option Preferences) :
    (calculate_similarity_score um om up op).2.mood_category =
      if um ≠ [] ∧ om ≠ [] then
        (if catFinset um ≠ ∅ ∧ catFinset om ≠ ∅ then
          ((catFinset um ∩ catFinset om).card : ℚ) /
            ((catFinset um ∪ catFinset om).card : ℚ)
        else 0)
      else 0 := by
  unfold calculate_similarity_score
  dsimp only
  split_ifs <;> rfl

lemma css_music (um om : List MoodEntry) (up op : Option Preferences) :
    (calculate_similarity_score um om up op).2.music =
      match up, op with
      | some u, some o => calculate_list_overlap u.music o.music
      | _, _ => 0 := by
  cases up <;> cases op <;> rfl

lemma css_activities (um om : List MoodEntry) (up op : Option Preferences) :
    (calculate_similarity_score um om up op).2.activities =
      match up, op with
      | some u, some o => calculate_list_overlap u.activities o.activities
      | _, _ => 0 := by
  cases up <;> cases op <;> rfl

lemma css_cuisines (um om : List MoodEntry) (up op : Option Preferences) :
    (calculate_similarity_score um om up op).2.cuisines =
      match up, op with
      | some u, some o => calculate_list_overlap u.cuisines o.cuisines
      | _, _ => 0 := by
  cases up <;> cases op <;> rfl

lemma catFinset_union_card_pos {um om : List MoodEntry}
    (h : catFinset um ≠ ∅) :
    0 < (catFinset um ∪ catFinset om).card :=
  Finset.card_pos.mpr
    ((Finset.nonempty_iff_ne_empty.mpr h).mono Finset.subset_union_left)

lemma breakdown_bounds (um om : List MoodEntry) (up op : Option Preferences) :
    (0 ≤ (calculate_similarity_score um om up op).2.mood_score ∧
      (calculate_similarity_score um om up op).2.mood_score ≤ 1) ∧
    (0 ≤ (calculate_similarity_score um om up op).2.mood_category ∧
      (calculate_similarity_score um om up op).2.mood_category ≤ 1) ∧
    (0 ≤ (calculate_similarity_score um om up op).2.music ∧
      (calculate_similarity_score um om up op).2.music ≤ 1) ∧
    (0 ≤ (calculate_similarity_score um om up op).2.activities ∧
      (calculate_similarity_score um om up op).2.activities ≤ 1) ∧
    (0 ≤ (calculate_similarity_score um om up op).2.cuisines ∧
      (calculate_similarity_score um om up op).2.cuisines ≤ 1) := by
  refine ⟨?_, ?_, ?_, ?_, ?_⟩
  · rw [css_mood_score]
    split_ifs with h
    · refine ⟨le_max_left 0 _, max_le zero_le_one ?_⟩
      have : (0 : ℚ) ≤ |avgMood um - avgMood om| / 100 := by positivity
      linarith
    · simp
  · rw [css_mood_category]
    split_ifs with h h2
    · refine ⟨by positivity, ?_⟩
      rw [div_le_one (by exact_mod_cast catFinset_union_card_pos h2.1)]
      exact_mod_cast Finset.card_le_card Finset.inter_subset_union
    · simp
    · simp
  · rw [css_music]
    cases up <;> cases op <;>
      simp [calculate_list_overlap_nonneg, calculate_list_overlap_le_one]
  · rw [css_activities]
    cases up <;> cases op <;>
      simp [calculate_list_overlap_nonneg, calculate_list_overlap_le_one]
  · rw [css_cuisines]
    cases up <;> cases op <;>
      simp [calculate_list_overlap_nonneg, calculate_list_overlap_le_one]

lemma breakdown_eq (um om : List MoodEntry) (up op : Option Preferences) :
    (calculate_similarity_score um om up op).1 =
      (calculate_similarity_score um om up op).2.mood_score * (25 / 100) +
      (calculate_similarity_score um om up op).2.mood_category * (15 / 100) +
      (calculate_similarity_score um om up op).2.music * (20 / 100) +
      (calculate_similarity_score um om up op).2.activities * (20 / 100) +
      (calculate_similarity_score um om up op).2.cuisines * (20 / 100) := rfl

lemma score_nonneg (um om : List MoodEntry) (up op : Option Preferences) :
    0 ≤ (calculate_similarity_score um om up op).1 := by
  obtain ⟨⟨a1, _⟩, ⟨b1, _⟩, ⟨c1, _⟩, ⟨d1, _⟩, ⟨e1, _⟩⟩ := breakdown_bounds um om up op
  rw [breakdown_eq]
  positivity

lemma score_le_one (um om : List MoodEntry) (up op : Option Preferences) :
    (calculate_similarity_score um om up op).1 ≤ 1 := by
  obtain ⟨⟨_, a2⟩, ⟨_, b2⟩, ⟨_, c2⟩, ⟨_, d2⟩, ⟨_, e2⟩⟩ := breakdown_bounds um om up op
  rw [breakdown_eq]
  nlinarith

/-- C2: for any mood histories and present preference records, the composite
similarity score equals 0.25·mood_score_similarity + 0.15·mood_category_overlap
+ 0.20·music + 0.20·activities + 0.20·cuisines, where the two mood components
follow the specification's definitions (0.0 on empty mood lists / empty
category sets). -/
theorem claim_C2_composite_formula (um om : List MoodEntry)
    (up op : Preferences) :
    (calculate_similarity_score um om (some up) (some op)).1 =
      (25 / 100) * spec_mood_score_similarity um om +
      (15 / 100) * spec_mood_category_overlap um om +
      (20 / 100) * calculate_list_overlap up.music op.music +
      (20 / 100) * calculate_list_overlap up.activities op.activities +
      (20 / 100) * calculate_list_overlap up.cuisines op.cuisines := by
  rw [breakdown_eq, css_mood_score, css_music, css_activities, css_cuisines,
    css_mood_category]
  unfold spec_mood_score_similarity spec_mood_category_overlap
  by_cases h1 : um = []
  · simp [h1, catFinset]
    ring
  · by_cases h2 : om = []
    · simp [h2, catFinset]
      ring
    · by_cases h3 : catFinset um = ∅ <;> by_cases h4 : catFinset om = ∅ <;>
        simp [h1, h2, h3, h4] <;> ring

lemma calculate_list_overlap_self {l : List String} (h : l ≠ []) :
    calculate_list_overlap l l = 1 := by
  unfold calculate_list_overlap
  dsimp only
  rw [if_neg (by simp [h])]
  have hpos : 0 < l.toFinset.card := by
    rw [Finset.card_pos]
    obtain ⟨a, as, rfl⟩ := List.exists_cons_of_ne_nil h
    exact ⟨a, by simp⟩
  rw [Finset.inter_self, Finset.union_self, if_pos hpos, div_self]
  exact_mod_cast hpos.ne'

/-- C3 counterexample: two singleton lists differing only in letter case give
overlap 0.0, not the claimed 1.0 — `calculate_list_overlap` applies no
case-insensitive or whitespace-trimming normalization. -/
theorem claim_C3_counterexample :
    calculate_list_overlap ["Rock"] ["rock"] = 0 ∧
    calculate_list_overlap ["Rock"] ["rock"] ≠ 1 := by
  have h : calculate_list_overlap ["Rock"] ["rock"] = 0 := by
    unfold calculate_list_overlap
    dsimp only
    rw [if_neg (by simp)]
    have hi : (["Rock"].toFinset ∩ ["rock"].toFinset).card = 0 := by decide
    have hu : (["Rock"].toFinset ∪ ["rock"].toFinset).card = 2 := by decide
    rw [hi, hu]
    norm_num
  exact ⟨h, by rw [h]; norm_num⟩

/-- C3 amended: the overlap is the Jaccard similarity of the exact
(unnormalized) string sets of the two lists, 0.0 if either list is empty, and
equals 1.0 precisely when both lists are non-empty with equal element sets. -/
theorem claim_C3_amended (l1 l2 : List String) :
    calculate_list_overlap l1 l2 =
      (if l1 = [] ∨ l2 = [] then 0
       else ((l1.toFinset ∩ l2.toFinset).card : ℚ) /
         ((l1.toFinset ∪ l2.toFinset).card : ℚ)) ∧
    (calculate_list_overlap l1 l2 = 1 ↔
      l1 ≠ [] ∧ l2 ≠ [] ∧ l1.toFinset = l2.toFinset) := by
  have hpos : ∀ l : List String, l ≠ [] → 0 < l.toFinset.card := by
    intro l h
    rw [Finset.card_pos]
    obtain ⟨a, as, rfl⟩ := List.exists_cons_of_ne_nil h
    exact ⟨a, by simp⟩
  constructor
  · unfold calculate_list_overlap
    dsimp only
    split_ifs with h h2
    · rfl
    · rfl
    · push_neg at h
      exfalso
      exact h2 (lt_of_lt_of_le (hpos l1 h.1)
        (Finset.card_le_card Finset.subset_union_left))
  · constructor
    · intro h
      by_cases h1 : l1 = []
      · simp [calculate_list_overlap, h1] at h
      · by_cases h2 : l2 = []
        · simp [calculate_list_overlap, h2] at h
        · refine ⟨h1, h2, ?_⟩
          unfold calculate_list_overlap at h
          dsimp only at h
          rw [if_neg (by simp [h1, h2]),
            if_pos (lt_of_lt_of_le (hpos l1 h1)
              (Finset.card_le_card Finset.subset_union_left))] at h
          have hu : 0 < ((l1.toFinset ∪ l2.toFinset).card : ℚ) := by
            exact_mod_cast lt_of_lt_of_le (hpos l1 h1)
              (Finset.card_le_card Finset.subset_union_left)
          rw [div_eq_one_iff_eq hu.ne'] at h
          have hcard : (l1.toFinset ∩ l2.toFinset).card =
              (l1.toFinset ∪ l2.toFinset).card := by exact_mod_cast h
          have heq : l1.toFinset ∩ l2.toFinset = l1.toFinset ∪ l2.toFinset :=
            Finset.eq_of_subset_of_card_le Finset.inter_subset_union hcard.ge
          have hsub12 : l1.toFinset ⊆ l2.toFinset := fun x hx =>
            Finset.mem_of_mem_inter_right
              (heq ▸ Finset.mem_union_left _ hx)
          have hsub21 : l2.toFinset ⊆ l1.toFinset := fun x hx =>
            Finset.mem_of_mem_inter_left
              (heq ▸ Finset.mem_union_right _ hx)
          exact Finset.Subset.antisymm hsub12 hsub21
    · rintro ⟨h1, h2, heq⟩
      unfold calculate_list_overlap
      dsimp only
      rw [if_neg (by simp [h1, h2]), heq, Finset.inter_self, Finset.union_self,
        if_pos (hpos l2 h2), div_self]
      exact_mod_cast (hpos l2 h2).ne'

/-- C8 counterexample: identical non-empty mood histories with identical but
empty preference lists give composite score 0.4, not 1.0. -/
theorem claim_C8_counterexample :
    (calculate_similarity_score [⟨1, 75, "Happy/Neutral"⟩]
        [⟨1, 75, "Happy/Neutral"⟩]
        (some ⟨1, [], [], []⟩) (some ⟨1, [], [], []⟩)).1 = 2 / 5 ∧
    (calculate_similarity_score [⟨1, 75, "Happy/Neutral"⟩]
        [⟨1, 75, "Happy/Neutral"⟩]
        (some ⟨1, [], [], []⟩) (some ⟨1, [], [], []⟩)).1 ≠ 1 := by
  have h : (calculate_similarity_score [⟨1, 75, "Happy/Neutral"⟩]
      [⟨1, 75, "Happy/Neutral"⟩]
      (some ⟨1, [], [], []⟩) (some ⟨1, [], [], []⟩)).1 = 2 / 5 := by
    rw [breakdown_eq, css_mood_score, css_mood_category, css_music,
      css_activities, css_cuisines]
    dsimp only
    rw [if_pos ⟨List.cons_ne_nil _ _, List.cons_ne_nil _ _⟩,
      if_pos ⟨List.cons_ne_nil _ _, List.cons_ne_nil _ _⟩]
    have hcat : catFinset [(⟨1, 75, "Happy/Neutral"⟩ : MoodEntry)] ≠ ∅ := by decide
    rw [if_pos ⟨hcat, hcat⟩, Finset.inter_self, Finset.union_self]
    have hcard : (catFinset [(⟨1, 75, "Happy/Neutral"⟩ : MoodEntry)]).card = 1 := by
      decide
    rw [hcard]
    norm_num [avgMood, calculate_list_overlap]
  exact ⟨h, by rw [h]; norm_num⟩

/-- C8 amended: the composite score always lies in [0,1]; a pair with
identical non-empty mood histories, a non-empty category set and identical
non-empty music/activities/cuisines lists scores exactly 1.0. -/
theorem claim_C8_amended (um om : List MoodEntry) (up op : Option Preferences) :
    (0 ≤ (calculate_similarity_score um om up op).1 ∧
      (calculate_similarity_score um om up op).1 ≤ 1) ∧
    (∀ (ms : List MoodEntry) (p : Preferences),
      ms ≠ [] → catFinset ms ≠ ∅ →
      p.music ≠ [] → p.activities ≠ [] → p.cuisines ≠ [] →
      (calculate_similarity_score ms ms (some p) (some p)).1 = 1) := by
  refine ⟨⟨score_nonneg um om up op, score_le_one um om up op⟩, ?_⟩
  intro ms p hms hcat hm ha hc
  rw [breakdown_eq, css_mood_score, css_mood_category, css_music,
    css_activities, css_cuisines]
  dsimp only
  rw [if_pos ⟨hms, hms⟩, if_pos ⟨hms, hms⟩, if_pos ⟨hcat, hcat⟩]
  rw [Finset.inter_self, Finset.union_self, sub_self, abs_zero, zero_div,
    sub_zero, max_eq_right zero_le_one, div_self, calculate_list_overlap_self hm,
    calculate_list_overlap_self ha, calculate_list_overlap_self hc]
  · norm_num
  · exact_mod_cast (Finset.card_pos.mpr (Finset.nonempty_iff_ne_empty.mpr hcat)).ne'

/-- C9: `get_category_from_score` maps 0-40 to Stressed/Anxious, 41-60 to
Tired/Low Energy, 61-80 to Happy/Neutral, 81-100 to Energetic/Excited, and
any score outside [0,100] to the fifth value "Unknown". -/
theorem claim_C9_category_thresholds (s : ℤ) :
    ((0 ≤ s ∧ s ≤ 40) → get_category_from_score s = "Stressed/Anxious") ∧
    ((41 ≤ s ∧ s ≤ 60) → get_category_from_score s = "Tired/Low Energy") ∧
    ((61 ≤ s ∧ s ≤ 80) → get_category_from_score s = "Happy/Neutral") ∧
    ((81 ≤ s ∧ s ≤ 100) → get_category_from_score s = "Energetic/Excited") ∧
    ((s < 0 ∨ 100 < s) → get_category_from_score s = "Unknown") := by
  unfold get_category_from_score MOOD_CATEGORIES
  refine ⟨?_, ?_, ?_, ?_, ?_⟩ <;> intro h
  · rw [List.find?_cons_of_pos _ (by simp only [decide_eq_true_eq]; omega)]
  · rw [List.find?_cons_of_neg _ (by simp only [decide_eq_true_eq]; omega),
      List.find?_cons_of_pos _ (by simp only [decide_eq_true_eq]; omega)]
  · rw [List.find?_cons_of_neg _ (by simp only [decide_eq_true_eq]; omega),
      List.find?_cons_of_neg _ (by simp only [decide_eq_true_eq]; omega),
      List.find?_cons_of_pos _ (by simp only [decide_eq_true_eq]; omega)]
  · rw [List.find?_cons_of_neg _ (by simp only [decide_eq_true_eq]; omega),
      List.find?_cons_of_neg _ (by simp only [decide_eq_true_eq]; omega),
      List.find?_cons_of_neg _ (by simp only [decide_eq_true_eq]; omega),
      List.find?_cons_of_pos _ (by simp only [decide_eq_true_eq]; omega)]
  · rw [List.find?_cons_of_neg _ (by simp only [decide_eq_true_eq]; omega),
      List.find?_cons_of_neg _ (by simp only [decide_eq_true_eq]; omega),
      List.find?_cons_of_neg _ (by simp only [decide_eq_true_eq]; omega),
      List.find?_cons_of_neg _ (by simp only [decide_eq_true_eq]; omega),
      List.find?_nil]


/-! ## Properties of the stable descending sort -/

lemma mem_insertRec {a r : Recommendation} {l : List Recommendation} :
    a ∈ insertRec r l ↔ a = r ∨ a ∈ l := by
  induction l with
  | nil => simp [insertRec]
  | cons x xs ih =>
      unfold insertRec
      split_ifs with h
      · constructor
        · intro hm
          rcases List.mem_cons.mp hm with h1 | h1
          · exact Or.inl h1
          · exact Or.inr h1
        · intro hm
          rcases hm with h1 | h1
          · exact h1 ▸ List.mem_cons_self r (x :: xs)
          · exact List.mem_cons_of_mem r h1
      · rw [List.mem_cons, ih, List.mem_cons]
        tauto

lemma mem_sortByScoreDesc {a : Recommendation} {l : List Recommendation} :
    a ∈ sortByScoreDesc l ↔ a ∈ l := by
  induction l with
  | nil => simp [sortByScoreDesc]
  | cons x xs ih =>
      unfold sortByScoreDesc
      rw [mem_insertRec, ih, List.mem_cons]

lemma pairwise_insertRec {r : Recommendation} {l : List Recommendation}
    (h : l.Pairwise (fun a b => b.score ≤ a.score)) :
    (insertRec r l).Pairwise (fun a b => b.score ≤ a.score) := by
  induction l with
  | nil => simp [insertRec]
  | cons x xs ih =>
      rw [List.pairwise_cons] at h
      unfold insertRec
      split_ifs with hx
      · rw [List.pairwise_cons]
        refine ⟨?_, List.pairwise_cons.mpr h⟩
        intro b hb
        rcases List.mem_cons.mp hb with h1 | h1
        · exact h1 ▸ hx
        · exact le_trans (h.1 b h1) hx
      · rw [List.pairwise_cons]
        refine ⟨?_, ih h.2⟩
        intro b hb
        rcases mem_insertRec.mp hb with h1 | h1
        · exact h1 ▸ le_of_lt (lt_of_not_le hx)
        · exact h.1 b h1

lemma sortByScoreDesc_pairwise (l : List Recommendation) :
    (sortByScoreDesc l).Pairwise (fun a b => b.score ≤ a.score) := by
  induction l with
  | nil => simp [sortByScoreDesc]
  | cons x xs ih => exact pairwise_insertRec ih

lemma filter_insertRec_pos {r : Recommendation} {q : ℚ}
    (l : List Recommendation) (hq : r.score = q) :
    (insertRec r l).filter (fun e => e.score = q) =
      r :: l.filter (fun e => e.score = q) := by
  induction l with
  | nil => simp [insertRec, List.filter, hq]
  | cons x xs ih =>
      unfold insertRec
      split_ifs with hx
      · rw [List.filter_cons, if_pos (by simpa using hq)]
      · have hxq : ¬ x.score = q := fun hc => hx (by rw [hq, ← hc])
        simp only [List.filter_cons, ih]
        rw [if_neg (by simpa using hxq), if_neg (by simpa using hxq)]

lemma filter_insertRec_neg {r : Recommendation} {q : ℚ}
    (l : List Recommendation) (hq : ¬ r.score = q) :
    (insertRec r l).filter (fun e => e.score = q) =
      l.filter (fun e => e.score = q) := by
  induction l with
  | nil => simp [insertRec, List.filter, hq]
  | cons x xs ih =>
      unfold insertRec
      split_ifs with hx
      · simp only [List.filter_cons]
        rw [if_neg (by simpa using hq)]
      · simp only [List.filter_cons, ih]

lemma sortByScoreDesc_filter_eq (l : List Recommendation) (q : ℚ) :
    (sortByScoreDesc l).filter (fun e => e.score = q) =
      l.filter (fun e => e.score = q) := by
  induction l with
  | nil => rfl
  | cons x xs ih =>
      unfold sortByScoreDesc
      by_cases hx : x.score = q
      · rw [filter_insertRec_pos _ hx, ih, List.filter_cons, if_pos (by simpa using hx)]
      · rw [filter_insertRec_neg _ hx, ih, List.filter_cons, if_neg (by simpa using hx)]

/-! ## Truncation helpers -/

lemma pyTake_eq_take (n : ℤ) (l : List α) :
    ∃ k, pyTake n l = l.take k := by
  unfold pyTake
  split_ifs <;> exact ⟨_, rfl⟩

lemma sqlLimit_eq_take (n : ℤ) (l : List α) :
    ∃ k, sqlLimit n l = l.take k := by
  unfold sqlLimit
  split_ifs
  · exact ⟨_, rfl⟩
  · exact ⟨l.length, (l.take_length).symm⟩

lemma pyTake_length_le (n : ℤ) (hn : 0 ≤ n) (l : List α) :
    (pyTake n l).length ≤ n.toNat := by
  unfold pyTake
  rw [if_pos hn, List.length_take]
  exact min_le_left _ _

lemma sqlLimit_length_le (n : ℤ) (hn : 0 ≤ n) (l : List α) :
    (sqlLimit n l).length ≤ n.toNat := by
  unfold sqlLimit
  rw [if_pos hn, List.length_take]
  exact min_le_left _ _


/-! ## Candidate pool and per-candidate loop lemmas -/

lemma mem_candidateIds {db : DB} {uid u : ℤ} :
    u ∈ candidateIds db uid ↔
      ((∃ m ∈ db.moods, m.user_id = u) ∨ (∃ p ∈ db.prefs, p.user_id = u)) ∧
        u ∉ excludedIds db uid := by
  unfold candidateIds
  rw [List.mem_filter]
  simp only [List.mem_dedup, List.mem_append, List.mem_map, decide_eq_true_eq]

lemma scoreCandidate_eq_some {db : DB} {uid c : ℤ} {e : Recommendation}
    (h : scoreCandidate db uid c = some e) :
    e.user = c ∧
    e.score = (calculate_similarity_score (recentMoods db uid)
      (recentMoods db c) (getPrefs db uid) (getPrefs db c)).1 ∧
    e.score_breakdown = some (calculate_similarity_score (recentMoods db uid)
      (recentMoods db c) (getPrefs db uid) (getPrefs db c)).2 ∧
    0 < e.score ∧ c ∈ db.users := by
  unfold scoreCandidate at h
  dsimp only at h
  split_ifs at h with h1 h2 h3 <;> cases h <;>
    exact ⟨rfl, rfl, rfl, by assumption, by assumption⟩

lemma scoreCandidate_retained {db : DB} {uid c : ℤ}
    (hdata : ¬(recentMoods db c = [] ∧ getPrefs db c = none))
    (hscore : 0 < (calculate_similarity_score (recentMoods db uid)
      (recentMoods db c) (getPrefs db uid) (getPrefs db c)).1)
    (huser : c ∈ db.users) :
    ∃ e, scoreCandidate db uid c = some e ∧ e.user = c ∧
      e.score = (calculate_similarity_score (recentMoods db uid)
        (recentMoods db c) (getPrefs db uid) (getPrefs db c)).1 := by
  unfold scoreCandidate
  dsimp only
  rw [if_neg hdata, if_pos hscore, if_pos huser]
  exact ⟨_, rfl, rfl, rfl⟩

lemma score_zero_of_no_data {um : List MoodEntry} {up : Option Preferences} :
    (calculate_similarity_score um [] up none).1 = 0 := by
  rw [breakdown_eq, css_mood_score, css_mood_category, css_music,
    css_activities, css_cuisines]
  rw [if_neg (by simp), if_neg (by simp)]
  cases up <;> norm_num

lemma mem_scoredRecs {db : DB} {uid : ℤ} {e : Recommendation} :
    e ∈ scoredRecs db uid ↔
      ∃ c ∈ candidateIds db uid, scoreCandidate db uid c = some e := by
  unfold scoredRecs
  rw [List.mem_filterMap]

/-- Every returned entry's user id lies in the candidate pool, on both the
cold-start path and the scored path. -/
lemma mem_get_recommendations_user {db : DB} {uid lim : ℤ}
    {e : Recommendation} (h : e ∈ get_recommendations db uid lim) :
    e.user ∈ candidateIds db uid := by
  unfold get_recommendations at h
  split_ifs at h with hcold
  · obtain ⟨u, hu, rfl⟩ := List.mem_map.mp h
    obtain ⟨k, hk⟩ := sqlLimit_eq_take lim (db.users.filter
      (fun u => u ∈ candidateIds db uid))
    rw [hk] at hu
    have := List.mem_filter.mp (List.mem_of_mem_take hu)
    simpa [coldEntry] using this.2
  · obtain ⟨k, hk⟩ := pyTake_eq_take lim (sortByScoreDesc (scoredRecs db uid))
    rw [hk] at h
    have hmem : e ∈ scoredRecs db uid :=
      mem_sortByScoreDesc.mp (List.mem_of_mem_take h)
    obtain ⟨c, hc, hsc⟩ := mem_scoredRecs.mp hmem
    exact (scoreCandidate_eq_some hsc).1 ▸ hc


/-! ## Exclusion lemmas for C1 -/

lemma mem_friends_of_row {db : DB} {A B : ℤ} (f : FriendRow)
    (hf : f ∈ db.friends)
    (hor : (f.user_id1 = A ∧ f.user_id2 = B) ∨ (f.user_id1 = B ∧ f.user_id2 = A)) :
    B ∈ get_friends_for_user db A := by
  unfold get_friends_for_user
  rw [List.mem_map]
  refine ⟨f, List.mem_filter.mpr ⟨hf, ?_⟩, ?_⟩
  · simp only [decide_eq_true_eq]
    rcases hor with ⟨h1, _⟩ | ⟨_, h2⟩
    · exact Or.inl h1
    · exact Or.inr h2
  · rcases hor with ⟨h1, h2⟩ | ⟨h1, h2⟩
    · rw [if_pos h1]; exact h2
    · by_cases hA : f.user_id1 = A
      · rw [if_pos hA]
        rw [hA] at h1
        rw [h2, ← h1]
      · rw [if_neg hA]; exact h1

lemma mem_excludedIds_of_rel {db : DB} {A B : ℤ}
    (h : (∃ f ∈ db.friends,
            (f.user_id1 = A ∧ f.user_id2 = B) ∨ (f.user_id1 = B ∧ f.user_id2 = A)) ∨
         (∃ r ∈ db.requests, r.status = "pending" ∧
            ((r.sender_id = A ∧ r.receiver_id = B) ∨
             (r.sender_id = B ∧ r.receiver_id = A))) ∨
         B = A) :
    B ∈ excludedIds db A := by
  unfold excludedIds
  rw [List.mem_cons]
  rcases h with ⟨f, hf, hor⟩ | ⟨r, hr, hst, hor⟩ | hBA
  · exact Or.inr (List.mem_append.mpr (Or.inl (List.mem_append.mpr
      (Or.inl (mem_friends_of_row f hf hor)))))
  · rcases hor with ⟨hs, hrecv⟩ | ⟨hs, hrecv⟩
    · refine Or.inr (List.mem_append.mpr (Or.inl (List.mem_append.mpr
        (Or.inr ?_))))
      rw [List.mem_map]
      refine ⟨r, List.mem_filter.mpr ⟨?_, by simp [hst]⟩, hrecv⟩
      unfold get_sent_requests_for_user
      exact List.mem_filter.mpr ⟨hr, by simp [hs]⟩
    · refine Or.inr (List.mem_append.mpr (Or.inr ?_))
      rw [List.mem_map]
      refine ⟨r, ?_, hs⟩
      unfold get_pending_requests_for_user
      exact List.mem_filter.mpr ⟨hr, by simp [hrecv, hst]⟩
  · exact Or.inl hBA

/-- C1: a friend of A, a user with a pending request to or from A, and A
itself never appear in A's recommendation list, on either path. -/
theorem claim_C1_exclusion (db : DB) (A B lim : ℤ)
    (h : (∃ f ∈ db.friends,
            (f.user_id1 = A ∧ f.user_id2 = B) ∨ (f.user_id1 = B ∧ f.user_id2 = A)) ∨
         (∃ r ∈ db.requests, r.status = "pending" ∧
            ((r.sender_id = A ∧ r.receiver_id = B) ∨
             (r.sender_id = B ∧ r.receiver_id = A))) ∨
         B = A) :
    ∀ e ∈ get_recommendations db A lim, e.user ≠ B := by
  intro e he hB
  have hpool := mem_get_recommendations_user he
  rw [hB] at hpool
  exact (mem_candidateIds.mp hpool).2 (mem_excludedIds_of_rel h)


/-- C4 counterexample: for user 6 (cold start, five eligible candidates) a
limit of 0 yields the empty list while the default limit 10 yields five
entries, so a non-positive limit is not treated as the default. -/
theorem claim_C4_counterexample :
    get_recommendations exDB 6 0 ≠ get_recommendations exDB 6 10 := by
  decide

/-- C4 amended: a non-positive limit is passed straight through to the SQL
`LIMIT` (cold path) and to Python slicing `[:limit]` (scored path) instead of
falling back to the default; in particular limit 0 always returns the empty
list, unlike the default of 10. -/
theorem claim_C4_amended (db : DB) (uid : ℤ) :
    get_recommendations db uid 0 = [] := by
  unfold get_recommendations
  split_ifs
  · simp [sqlLimit]
  · simp [pyTake]

/-- C5: with no mood entries and no preference record the cold-start fallback
returns at most `limit` entries, each scoreless (0.0) with empty shared
lists and null average, drawn from the data-bearing, non-excluded pool. -/
theorem claim_C5_cold_start (db : DB) (A lim : ℤ)
    (hm : recentMoods db A = []) (hp : getPrefs db A = none) (hl : 0 ≤ lim) :
    (get_recommendations db A lim).length ≤ lim.toNat ∧
    ∀ e ∈ get_recommendations db A lim,
      e.score = 0 ∧ e.shared_mood_categories = [] ∧ e.avg_mood_score = none ∧
      e.shared_music = [] ∧ e.shared_activities = [] ∧ e.shared_cuisines = [] ∧
      ((∃ m ∈ db.moods, m.user_id = e.user) ∨
        (∃ p ∈ db.prefs, p.user_id = e.user)) ∧
      e.user ∉ excludedIds db A := by
  have hcold : recentMoods db A = [] ∧ getPrefs db A = none := ⟨hm, hp⟩
  constructor
  · unfold get_recommendations
    rw [if_pos hcold, List.length_map]
    exact sqlLimit_length_le lim hl _
  · intro e he
    have hchar := mem_candidateIds.mp (mem_get_recommendations_user he)
    unfold get_recommendations at he
    rw [if_pos hcold] at he
    obtain ⟨u, hu, rfl⟩ := List.mem_map.mp he
    exact ⟨rfl, rfl, rfl, rfl, rfl, rfl, hchar.1, hchar.2⟩

/-- C6: on the scored path the result has at most `limit` entries, every
returned and every retained entry has a strictly positive composite score,
and every data-bearing candidate with positive score and a user row is
retained (with its score) before truncation. -/
theorem claim_C6_positive_scores (db : DB) (A lim : ℤ)
    (hcold : ¬(recentMoods db A = [] ∧ getPrefs db A = none)) (hl : 0 ≤ lim) :
    (get_recommendations db A lim).length ≤ lim.toNat ∧
    (∀ e ∈ get_recommendations db A lim, 0 < e.score) ∧
    (∀ e ∈ scoredRecs db A, 0 < e.score) ∧
    (∀ c ∈ candidateIds db A, c ∈ db.users →
      0 < (calculate_similarity_score (recentMoods db A) (recentMoods db c)
        (getPrefs db A) (getPrefs db c)).1 →
      ∃ e ∈ scoredRecs db A, e.user = c ∧
        e.score = (calculate_similarity_score (recentMoods db A)
          (recentMoods db c) (getPrefs db A) (getPrefs db c)).1) := by
  have hrec : ∀ e ∈ scoredRecs db A, 0 < e.score := by
    intro e he
    obtain ⟨cand, _, hsc⟩ := mem_scoredRecs.mp he
    exact (scoreCandidate_eq_some hsc).2.2.2.1
  refine ⟨?_, ?_, hrec, ?_⟩
  · unfold get_recommendations
    rw [if_neg hcold]
    exact pyTake_length_le lim hl _
  · intro e he
    unfold get_recommendations at he
    rw [if_neg hcold] at he
    obtain ⟨k, hk⟩ := pyTake_eq_take lim (sortByScoreDesc (scoredRecs db A))
    rw [hk] at he
    exact hrec e (mem_sortByScoreDesc.mp (List.mem_of_mem_take he))
  · intro cand hc hcu hs
    have hdata : ¬(recentMoods db cand = [] ∧ getPrefs db cand = none) := by
      rintro ⟨h1, h2⟩
      rw [h1, h2, score_zero_of_no_data] at hs
      exact lt_irrefl 0 hs
    obtain ⟨e, hsc, hu, hscore⟩ := scoreCandidate_retained hdata hs hcu
    exact ⟨e, mem_scoredRecs.mpr ⟨cand, hc, hsc⟩, hu, hscore⟩

/-- C7: the scored result is sorted by score descending, and the sort is
stable: for every score value, the retained candidates with that score keep
their candidate-enumeration order, and the truncated result is a prefix of
that subsequence. -/
theorem claim_C7_sorted_stable (db : DB) (A lim : ℤ)
    (hcold : ¬(recentMoods db A = [] ∧ getPrefs db A = none)) :
    (get_recommendations db A lim).Pairwise (fun a b => b.score ≤ a.score) ∧
    (∀ q : ℚ, (sortByScoreDesc (scoredRecs db A)).filter (fun e => e.score = q) =
      (scoredRecs db A).filter (fun e => e.score = q)) ∧
    (∀ q : ℚ, ∃ t,
      (get_recommendations db A lim).filter (fun e => e.score = q) ++ t =
        (scoredRecs db A).filter (fun e => e.score = q)) := by
  refine ⟨?_, fun q => sortByScoreDesc_filter_eq _ q, ?_⟩
  · unfold get_recommendations
    rw [if_neg hcold]
    obtain ⟨k, hk⟩ := pyTake_eq_take lim (sortByScoreDesc (scoredRecs db A))
    rw [hk]
    exact (sortByScoreDesc_pairwise _).sublist (List.take_sublist _ _)
  · intro q
    unfold get_recommendations
    rw [if_neg hcold]
    obtain ⟨k, hk⟩ := pyTake_eq_take lim (sortByScoreDesc (scoredRecs db A))
    rw [hk]
    refine ⟨((sortByScoreDesc (scoredRecs db A)).drop k).filter
      (fun e => e.score = q), ?_⟩
    rw [← List.filter_append, List.take_append_drop, sortByScoreDesc_filter_eq]

/-- C10: scored-path entries carry a `score_breakdown` with all five
components in [0,1]; cold-start entries carry none, so its presence
distinguishes the two paths. -/
theorem claim_C10_breakdown (db : DB) (A lim : ℤ) :
    ∀ e ∈ get_recommendations db A lim,
      ((recentMoods db A = [] ∧ getPrefs db A = none) →
        e.score_breakdown = none) ∧
      (¬(recentMoods db A = [] ∧ getPrefs db A = none) →
        ∃ b, e.score_breakdown = some b ∧
          (0 ≤ b.mood_score ∧ b.mood_score ≤ 1) ∧
          (0 ≤ b.mood_category ∧ b.mood_category ≤ 1) ∧
          (0 ≤ b.music ∧ b.music ≤ 1) ∧
          (0 ≤ b.activities ∧ b.activities ≤ 1) ∧
          (0 ≤ b.cuisines ∧ b.cuisines ≤ 1)) := by
  intro e he
  constructor
  · intro hcold
    unfold get_recommendations at he
    rw [if_pos hcold] at he
    obtain ⟨u, hu, rfl⟩ := List.mem_map.mp he
    rfl
  · intro hcold
    unfold get_recommendations at he
    rw [if_neg hcold] at he
    obtain ⟨k, hk⟩ := pyTake_eq_take lim (sortByScoreDesc (scoredRecs db A))
    rw [hk] at he
    obtain ⟨cand, _, hsc⟩ :=
      mem_scoredRecs.mp (mem_sortByScoreDesc.mp (List.mem_of_mem_take he))
    obtain ⟨_, _, hbd, _, _⟩ := scoreCandidate_eq_some hsc
    obtain ⟨b1, b2, b3, b4, b5⟩ := breakdown_bounds (recentMoods db A)
      (recentMoods db cand) (getPrefs db A) (getPrefs db cand)
    exact ⟨_, hbd, b1, b2, b3, b4, b5⟩


/-! ## Witnesses: the claim theorems applied at concrete inputs -/

theorem claim_C1_exclusion_witness :
    ¬ ∃ e ∈ get_recommendations exDB 1 10, e.user = 4 := by
  rintro ⟨e, he, h4⟩
  exact claim_C1_exclusion exDB 1 4 10
    (Or.inl ⟨⟨1, 4⟩, by decide, Or.inl ⟨rfl, rfl⟩⟩) e he h4

theorem claim_C5_cold_start_witness :
    (get_recommendations exDB 6 10).length ≤ (10 : ℤ).toNat ∧
    (coldEntry 1).score = 0 ∧ (1 : ℤ) ∉ excludedIds exDB 6 := by
  have h := claim_C5_cold_start exDB 6 10 rfl rfl (by norm_num)
  have hmem : coldEntry 1 ∈ get_recommendations exDB 6 10 := by decide
  have h2 := h.2 (coldEntry 1) hmem
  exact ⟨h.1, h2.1, h2.2.2.2.2.2.2.2⟩

theorem claim_C6_positive_scores_witness :
    (get_recommendations exDB 1 10).length ≤ (10 : ℤ).toNat ∧
    ∀ e ∈ get_recommendations exDB 1 10, 0 < e.score := by
  have h := claim_C6_positive_scores exDB 1 10 (by decide) (by norm_num)
  exact ⟨h.1, h.2.1⟩

theorem claim_C7_sorted_stable_witness :
    (get_recommendations exDB 1 10).Pairwise (fun a b => b.score ≤ a.score) ∧
    (sortByScoreDesc (scoredRecs exDB 1)).filter (fun e => e.score = 1) =
      (scoredRecs exDB 1).filter (fun e => e.score = 1) := by
  have h := claim_C7_sorted_stable exDB 1 10 (by decide)
  exact ⟨h.1, h.2.1 1⟩

theorem claim_C8_amended_witness :
    0 ≤ (calculate_similarity_score [] [] none none).1 ∧
    (calculate_similarity_score [⟨1, 75, "Happy/Neutral"⟩]
      [⟨1, 75, "Happy/Neutral"⟩]
      (some ⟨1, ["rock"], ["hiking"], ["italian"]⟩)
      (some ⟨1, ["rock"], ["hiking"], ["italian"]⟩)).1 = 1 := by
  refine ⟨(claim_C8_amended [] [] none none).1.1, ?_⟩
  exact (claim_C8_amended [] [] none none).2 [⟨1, 75, "Happy/Neutral"⟩]
    ⟨1, ["rock"], ["hiking"], ["italian"]⟩
    (by decide) (by decide) (by decide) (by decide) (by decide)

theorem claim_C9_category_thresholds_witness :
    get_category_from_score 0 = "Stressed/Anxious" ∧
    get_category_from_score 50 = "Tired/Low Energy" ∧
    get_category_from_score 70 = "Happy/Neutral" ∧
    get_category_from_score 90 = "Energetic/Excited" ∧
    get_category_from_score 101 = "Unknown" :=
  ⟨(claim_C9_category_thresholds 0).1 (by norm_num),
    (claim_C9_category_thresholds 50).2.1 (by norm_num),
    (claim_C9_category_thresholds 70).2.2.1 (by norm_num),
    (claim_C9_category_thresholds 90).2.2.2.1 (by norm_num),
    (claim_C9_category_thresholds 101).2.2.2.2 (by norm_num)⟩

theorem claim_C10_breakdown_witness :
    (coldEntry 1).score_breakdown = none := by
  have hmem : coldEntry 1 ∈ get_recommendations exDB 6 10 := by decide
  exact (claim_C10_breakdown exDB 6 10 (coldEntry 1) hmem).1 (by decide)

end ANPDSS
